import Mathlib

/-
Verification of the date-attribute parsing utility of the AMP HTML
repository, `src/core/dom/parse-date-attributes.js`.

The embedding models JavaScript numbers as rationals plus a NaN value,
an element as an abstract attribute source (name to optional string),
and the two exported functions `parseDateAttrs` / `parseEpoch` together
with the parser registry `dateAttrParsers`, threading the wall clock
(`Date.now()`) as an explicit parameter.

The helper modules `src/core/assert` (devAssert / userAssert) and
`src/core/types/date` (parseDate) are imported by the file but are not
part of the source tree under verification; those two pieces are
modelled from the specification, as indicated on their definitions.
-/

namespace AmpDate

/-- A JavaScript number as produced by the date parsers: either NaN or a
finite value, modelled as a rational. The parsers only ever produce finite
values and NaN, so this fragment suffices. -/
inductive JSNum where
  | nan : JSNum
  | num : ℚ → JSNum

deriving instance DecidableEq for JSNum

/-- JavaScript addition on numbers: NaN propagates. -/
def JSNum.add : JSNum → JSNum → JSNum
  | JSNum.num a, JSNum.num b => JSNum.num (a + b)
  | _, _ => JSNum.nan

/-- JavaScript multiplication on numbers: NaN propagates. -/
def JSNum.mul : JSNum → JSNum → JSNum
  | JSNum.num a, JSNum.num b => JSNum.num (a * b)
  | _, _ => JSNum.nan

/-- The three error kinds of the component (spec section 7): an assertion
failure for an unrecognized attribute name, an unparsable date value, and
the absence of every candidate attribute. -/
inductive DateError where
  | unknownAttribute : String → DateError
  | invalidDate : String → DateError
  | missingAttribute : List String → DateError

deriving instance DecidableEq for DateError

deriving instance DecidableEq for Except

/-- Split a character list at every occurrence of a separator. -/
def splitOnChar (sep : Char) : List Char → List (List Char)
  | [] => [[]]
  | c :: rest =>
    if c = sep then [] :: splitOnChar sep rest
    else
      match splitOnChar sep rest with
      | [] => [[c]]
      | group :: groups => (c :: group) :: groups

/-- Whitespace characters stripped by the JavaScript `Number` coercion. -/
def isJsWhitespace (c : Char) : Bool :=
  c = ' ' || c = '\t' || c = '\n' || c = '\r'

/-- Strip leading and trailing whitespace. -/
def trimChars (l : List Char) : List Char :=
  ((l.dropWhile isJsWhitespace).reverse.dropWhile isJsWhitespace).reverse

/-- Numeric value of a list of decimal digit characters. -/
def digitsVal (l : List Char) : Nat :=
  l.foldl (fun a c => a * 10 + (c.toNat - 48)) 0

/-- Whether every character is a decimal digit. -/
def allDigits (l : List Char) : Bool :=
  l.all Char.isDigit

/-- Unsigned decimal literal (digits with an optional fractional part) as a
rational, or `none` when the characters are not such a literal. -/
def decCharsToRat (l : List Char) : Option ℚ :=
  match splitOnChar '.' l with
  | [a] => if a ≠ [] ∧ allDigits a then some (digitsVal a : ℚ) else none
  | [a, b] =>
    if (a ≠ [] ∨ b ≠ []) ∧ allDigits a ∧ allDigits b then
      some ((digitsVal a : ℚ) + (digitsVal b : ℚ) / (10 ^ b.length : ℚ))
    else none
  | _ => none

/-- The JavaScript `Number(string)` coercion on the fragment the component
uses: whitespace is trimmed, the empty string is 0, an optionally signed
decimal literal is its value, and anything else is NaN. -/
def jsToNumber (s : String) : JSNum :=
  match trimChars s.toList with
  | [] => JSNum.num 0
  | c :: rest =>
    if c = '-' then
      match decCharsToRat rest with
      | some q => JSNum.num (-q)
      | none => JSNum.nan
    else if c = '+' then
      match decCharsToRat rest with
      | some q => JSNum.num q
      | none => JSNum.nan
    else
      match decCharsToRat (c :: rest) with
      | some q => JSNum.num q
      | none => JSNum.nan

/-- An exactly `w`-digit decimal field. -/
def parseFixedNat (w : Nat) (l : List Char) : Option Nat :=
  if l.length = w ∧ allDigits l then some (digitsVal l) else none

/-- Days from the Unix epoch to the civil date `y-m-d` (proleptic Gregorian
calendar, `y` at least 1). -/
def daysFromCivil (y m d : Nat) : Int :=
  let yy := if m ≤ 2 then y - 1 else y
  let mp := (m + 9) % 12
  let doy := (153 * mp + 2) / 5 + (d - 1)
  (((365 * yy + yy / 4 + yy / 400 + doy : Nat) : Int) - ((yy / 100 : Nat) : Int)) - 719468

/-- A `YYYY-MM-DD` calendar date as a day count from the Unix epoch. -/
def parseCivilDate (l : List Char) : Option Int :=
  match splitOnChar '-' l with
  | [ys, ms, ds] =>
    match parseFixedNat 4 ys, parseFixedNat 2 ms, parseFixedNat 2 ds with
    | some y, some m, some d =>
      if 1 ≤ y ∧ 1 ≤ m ∧ m ≤ 12 ∧ 1 ≤ d ∧ d ≤ 31 then some (daysFromCivil y m d)
      else none
    | _, _, _ => none
  | _ => none

/-- A `HH:MM:SS` time of day as milliseconds since midnight. -/
def parseTimeOfDay (l : List Char) : Option Int :=
  match splitOnChar ':' l with
  | [hs, ms, ss] =>
    match parseFixedNat 2 hs, parseFixedNat 2 ms, parseFixedNat 2 ss with
    | some h, some mi, some se =>
      if h ≤ 23 ∧ mi ≤ 59 ∧ se ≤ 59 then some ((3600 * h + 60 * mi + se : Nat) * 1000)
      else none
    | _, _, _ => none
  | _ => none

/-- Modelled from the spec: the function `parseDate` of `src/core/types/date`
is imported by the source file but is not in the tree under verification.
Per the spec a datetime string is parsed as a calendar date to a millisecond
epoch, UTC-normalized, and an unparsable string fails. The model accepts the
ISO-8601 UTC forms `YYYY-MM-DD` and `YYYY-MM-DDTHH:MM:SSZ`. -/
def parseDate (s : String) : Option Int :=
  match splitOnChar 'T' s.toList with
  | [d] => (parseCivilDate d).map (fun days => days * 86400000)
  | [d, t] =>
    if t.getLast? = some 'Z' then
      match parseCivilDate d, parseTimeOfDay t.dropLast with
      | some days, some ms => some (days * 86400000 + ms)
      | _, _ => none
    else none
  | _ => none

/-- The result of one attribute parser: a timestamp or a validation error. -/
def ParserResult := Except DateError JSNum

/-- An element seen as an attribute source: `getAttribute` returns the
attribute string when present and null (here `none`) otherwise. -/
def AttributeSource := String → Option String

/-- Truthiness of a `getAttribute` result: present and non-empty. -/
def attrTruthy : Option String → Bool
  | some v => !v.isEmpty
  | none => false

/-- The `datetime` and `end-date` entry of the registry:
`userAssert(parseDate(datetime), 'Invalid date: ...', datetime)`, with
`userAssert` modelled from the spec (`src/core/assert` is not in the tree
under verification): the parser fails with `InvalidDateError` exactly when
`parseDate` fails, and otherwise yields the parsed millisecond epoch. -/
def parseDatetimeValue (v : String) : Except DateError JSNum :=
  match parseDate v with
  | some ms => Except.ok (JSNum.num (ms : ℚ))
  | none => Except.error (DateError.invalidDate v)

/-- The `timeleft-ms` entry of the registry:
`Date.now() + Number(timeleftMs)`, with the clock passed explicitly. -/
def parseTimeleftValue (now : ℚ) (v : String) : Except DateError JSNum :=
  Except.ok (JSNum.add (JSNum.num now) (jsToNumber v))

/-- The `timestamp-ms` entry of the registry: `Number(ms)`. -/
def parseTimestampMsValue (v : String) : Except DateError JSNum :=
  Except.ok (jsToNumber v)

/-- The `timestamp-seconds` entry of the registry:
`1000 * Number(timestampSeconds)`. -/
def parseTimestampSecondsValue (v : String) : Except DateError JSNum :=
  Except.ok (JSNum.mul (JSNum.num 1000) (jsToNumber v))

/-- The registry `dateAttrParsers` of the source: a map from the five
recognized attribute names to their parsers. `now` is the wall-clock value
`Date.now()` would return at the moment the parser runs. -/
def dateAttrParsers (now : ℚ) (name : String) : Option (String → Except DateError JSNum) :=
  if name = "datetime" then some parseDatetimeValue
  else if name = "end-date" then some parseDatetimeValue
  else if name = "timeleft-ms" then some (parseTimeleftValue now)
  else if name = "timestamp-ms" then some parseTimestampMsValue
  else if name = "timestamp-seconds" then some parseTimestampSecondsValue
  else none

/-- Whether an attribute name is one of the five recognized keys. -/
def recognizedAttr (name : String) : Bool :=
  if name = "datetime" then true
  else if name = "end-date" then true
  else if name = "timeleft-ms" then true
  else if name = "timestamp-ms" then true
  else if name = "timestamp-seconds" then true
  else false

/-- The validation pass of `parseEpoch`: `dateAttrs.map((attrName) =>
devAssert(dateAttrParsers[attrName], ...))`. `devAssert` is modelled from
the spec: `src/core/assert` is not in the tree under verification, and per
the spec the lookup fails with `UnknownAttributeError` naming the offending
attribute when the name is not one of the five recognized keys; as in the
source map, the first unrecognized name raises. -/
def validateAttrs (now : ℚ) : List String → Except DateError (List (String → Except DateError JSNum))
  | [] => Except.ok []
  | a :: rest =>
    match dateAttrParsers now a with
    | some p => (validateAttrs now rest).map (fun ps => p :: ps)
    | none => Except.error (DateError.unknownAttribute a)

/-- The scanning loop of `parseEpoch`: walk the name/parser pairs in order
and apply the parser of the first name whose attribute value is truthy. -/
def epochScan (element : AttributeSource) :
    List (String × (String → Except DateError JSNum)) → Except DateError (Option JSNum)
  | [] => Except.ok none
  | (name, p) :: rest =>
    match element name with
    | some v => if v.isEmpty then epochScan element rest else (p v).map some
    | none => epochScan element rest

/-- The source function `parseEpoch`: validate every requested name against
the registry, then return the parse of the first truthy attribute, or `none`
when no candidate is present. -/
def parseEpoch (now : ℚ) (element : AttributeSource) (dateAttrs : List String) :
    Except DateError (Option JSNum) :=
  match validateAttrs now dateAttrs with
  | Except.error e => Except.error e
  | Except.ok parsers => epochScan element (dateAttrs.zip parsers)

/-- The offset computation of `parseDateAttrs`:
`(Number(element.getAttribute('offset-seconds')) || 0)`. `Number(null)` is 0,
and `|| 0` turns NaN (and 0 itself) into 0, so the offset in seconds is a
plain rational. -/
def offsetSecondsOf (element : AttributeSource) : ℚ :=
  match element "offset-seconds" with
  | none => 0
  | some v =>
    match jsToNumber v with
    | JSNum.nan => 0
    | JSNum.num q => q

/-- The source function `parseDateAttrs`: resolve the epoch, fail when no
candidate attribute is present, and add the second-level offset. The
`userAssert` around `parseEpoch` is modelled from the spec: `src/core/assert`
is not in the tree under verification, and per the spec the call fails with
`MissingAttributeError` listing all candidate names exactly when the
resolver returns null. -/
def parseDateAttrs (now : ℚ) (element : AttributeSource) (dateAttrs : List String) :
    Except DateError JSNum :=
  match parseEpoch now element dateAttrs with
  | Except.error e => Except.error e
  | Except.ok none => Except.error (DateError.missingAttribute dateAttrs)
  | Except.ok (some epoch) => Except.ok (epoch.add (JSNum.num (offsetSecondsOf element * 1000)))

/-- A concrete attribute source built from an association list, for
instantiating the theorems. -/
def sourceOfList (attrs : List (String × String)) : AttributeSource :=
  fun name => (attrs.find? (fun pr => pr.fst = name)).map Prod.snd

/-- Reference form of the scan once validation has succeeded: walk the
requested names in order and parse the first truthy attribute with its
registry parser. `parseEpoch` agrees with this whenever every requested
name is recognized. -/
def epochFirst (now : ℚ) (element : AttributeSource) : List String → Except DateError (Option JSNum)
  | [] => Except.ok none
  | a :: rest =>
    match element a with
    | some v =>
      if v.isEmpty then epochFirst now element rest
      else
        match dateAttrParsers now a with
        | some p => (p v).map some
        | none => Except.ok none
    | none => epochFirst now element rest

theorem dateAttrParsers_isSome_iff (now : ℚ) (name : String) :
    (dateAttrParsers now name).isSome = recognizedAttr name := by
  unfold dateAttrParsers recognizedAttr
  split_ifs <;> rfl

theorem validateAttrs_ok (now : ℚ) (names : List String)
    (h : ∀ n ∈ names, recognizedAttr n = true) :
    ∃ ps, validateAttrs now names = Except.ok ps := by
  induction names with
  | nil => exact ⟨[], rfl⟩
  | cons a rest ih =>
    have ha : (dateAttrParsers now a).isSome := by
      rw [dateAttrParsers_isSome_iff]
      exact h a (List.mem_cons_self a rest)
    obtain ⟨p, hp⟩ := Option.isSome_iff_exists.mp ha
    obtain ⟨ps, hps⟩ := ih (fun n hn => h n (List.mem_cons_of_mem a hn))
    refine ⟨p :: ps, ?_⟩
    unfold validateAttrs
    rw [hp, hps]
    rfl

theorem parseEpoch_of_validate_error (now : ℚ) (el : AttributeSource)
    (names : List String) (e : DateError)
    (h : validateAttrs now names = Except.error e) :
    parseEpoch now el names = Except.error e := by
  unfold parseEpoch
  rw [h]

theorem parseEpoch_eq_epochFirst (now : ℚ) (el : AttributeSource) (names : List String)
    (h : ∀ n ∈ names, recognizedAttr n = true) :
    parseEpoch now el names = epochFirst now el names := by
  induction names with
  | nil => rfl
  | cons a rest ih =>
    have ha : (dateAttrParsers now a).isSome := by
      rw [dateAttrParsers_isSome_iff]
      exact h a (List.mem_cons_self a rest)
    obtain ⟨p, hp⟩ := Option.isSome_iff_exists.mp ha
    obtain ⟨ps, hps⟩ := validateAttrs_ok now rest (fun n hn => h n (List.mem_cons_of_mem a hn))
    have hrest : parseEpoch now el rest = epochFirst now el rest :=
      ih (fun n hn => h n (List.mem_cons_of_mem a hn))
    unfold parseEpoch at hrest
    rw [hps] at hrest
    unfold parseEpoch validateAttrs
    rw [hp, hps]
    unfold epochFirst
    rw [hp]
    simp only [Except.map, List.zip_cons_cons]
    unfold epochScan
    cases hel : el a with
    | none => exact hrest
    | some v =>
      by_cases hv : v.isEmpty
      · simp only [hv, if_true]
        exact hrest
      · simp only [hv, Bool.false_eq_true, if_false]
        cases p v <;> rfl

theorem dateAttrParsers_none_of_not_recognized (now : ℚ) (name : String)
    (h : recognizedAttr name = false) : dateAttrParsers now name = none := by
  cases ho : dateAttrParsers now name with
  | none => rfl
  | some p =>
    have := dateAttrParsers_isSome_iff now name
    rw [ho, h] at this
    cases this

theorem validateAttrs_error_first (now : ℚ) (names : List String)
    (h : ∃ n ∈ names, recognizedAttr n = false) :
    ∃ n ∈ names, recognizedAttr n = false ∧
      validateAttrs now names = Except.error (DateError.unknownAttribute n) := by
  induction names with
  | nil =>
    obtain ⟨n, hn, -⟩ := h
    cases hn
  | cons a rest ih =>
    by_cases ha : recognizedAttr a = true
    · have hsome : (dateAttrParsers now a).isSome = true := by
        rw [dateAttrParsers_isSome_iff]
        exact ha
      obtain ⟨p, hp⟩ := Option.isSome_iff_exists.mp hsome
      have h' : ∃ n ∈ rest, recognizedAttr n = false := by
        obtain ⟨n, hn, hf⟩ := h
        rcases List.mem_cons.mp hn with rfl | hn'
        · rw [ha] at hf; cases hf
        · exact ⟨n, hn', hf⟩
      obtain ⟨n, hn, hf, he⟩ := ih h'
      refine ⟨n, List.mem_cons_of_mem a hn, hf, ?_⟩
      unfold validateAttrs
      rw [hp, he]
      rfl
    · have haf : recognizedAttr a = false := by
        cases hb : recognizedAttr a with
        | false => rfl
        | true => exact absurd hb ha
      refine ⟨a, List.mem_cons_self a rest, haf, ?_⟩
      unfold validateAttrs
      rw [dateAttrParsers_none_of_not_recognized now a haf]

/-- C1: for every attribute source and list of attribute names, if any name
is not one of the five recognized keys, `parseEpoch` fails with an
`UnknownAttributeError` naming an unrecognized requested name, and the
outcome is the same for every attribute source — validation precedes any
attribute read, so an earlier recognized, present name cannot rescue the
call. -/
theorem parseEpoch_unknown_name_fails_before_read
    (now : ℚ) (el el' : AttributeSource) (names : List String)
    (h : ∃ n ∈ names, recognizedAttr n = false) :
    (∃ n ∈ names, recognizedAttr n = false ∧
        parseEpoch now el names = Except.error (DateError.unknownAttribute n)) ∧
    parseEpoch now el names = parseEpoch now el' names := by
  obtain ⟨n, hn, hf, he⟩ := validateAttrs_error_first now names h
  refine ⟨⟨n, hn, hf, parseEpoch_of_validate_error now el names _ he⟩, ?_⟩
  rw [parseEpoch_of_validate_error now el names _ he,
    parseEpoch_of_validate_error now el' names _ he]

/-- Witness for C1: with names `["timestamp-ms", "bogus"]`, the recognized
and present `timestamp-ms` attribute does not rescue the call — resolution
fails with the unknown-attribute error, and the result is the same on a
source with no attributes at all. -/
theorem parseEpoch_unknown_name_fails_before_read_witness :
    (∃ n ∈ ["timestamp-ms", "bogus"], recognizedAttr n = false ∧
        parseEpoch 0 (sourceOfList [("timestamp-ms", "5000")]) ["timestamp-ms", "bogus"] =
          Except.error (DateError.unknownAttribute n)) ∧
    parseEpoch 0 (sourceOfList [("timestamp-ms", "5000")]) ["timestamp-ms", "bogus"] =
      parseEpoch 0 (sourceOfList []) ["timestamp-ms", "bogus"] :=
  parseEpoch_unknown_name_fails_before_read 0 (sourceOfList [("timestamp-ms", "5000")])
    (sourceOfList []) ["timestamp-ms", "bogus"]
    ⟨"bogus", by simp, rfl⟩

theorem parseDatetimeValue_error (v : String) (e : DateError)
    (he : parseDatetimeValue v = Except.error e) : e = DateError.invalidDate v := by
  unfold parseDatetimeValue at he
  cases hd : parseDate v with
  | some ms => rw [hd] at he; cases he
  | none =>
    rw [hd] at he
    injection he with he
    exact he.symm

theorem registry_error_invalid (now : ℚ) (name : String)
    (p : String → Except DateError JSNum) (hp : dateAttrParsers now name = some p)
    (v : String) (e : DateError) (he : p v = Except.error e) :
    ∃ u, e = DateError.invalidDate u := by
  unfold dateAttrParsers at hp
  split_ifs at hp <;> cases hp
  · exact ⟨v, parseDatetimeValue_error v e he⟩
  · exact ⟨v, parseDatetimeValue_error v e he⟩
  · cases he
  · cases he
  · cases he

theorem epochFirst_error_invalid (now : ℚ) (el : AttributeSource)
    (names : List String) (e : DateError)
    (h : epochFirst now el names = Except.error e) :
    ∃ u, e = DateError.invalidDate u := by
  induction names with
  | nil => cases h
  | cons a rest ih =>
    unfold epochFirst at h
    cases hel : el a with
    | none =>
      rw [hel] at h
      exact ih h
    | some v =>
      rw [hel] at h
      cases hv : v.isEmpty with
      | true =>
        simp only [hv, if_true] at h
        exact ih h
      | false =>
        simp only [hv, Bool.false_eq_true, if_false] at h
        cases hpa : dateAttrParsers now a with
        | none =>
          simp only [hpa] at h
          exact Except.noConfusion h
        | some p =>
          simp only [hpa] at h
          cases hpv : p v with
          | ok x =>
            simp only [hpv, Except.map] at h
            exact Except.noConfusion h
          | error e' =>
            simp only [hpv, Except.map] at h
            injection h with h
            exact h ▸ registry_error_invalid now a p hpa v e' hpv

theorem epochFirst_none_iff (now : ℚ) (el : AttributeSource) (names : List String)
    (hrec : ∀ n ∈ names, recognizedAttr n = true) :
    (epochFirst now el names = Except.ok none ↔
      ∀ n ∈ names, attrTruthy (el n) = false) := by
  induction names with
  | nil => simp [epochFirst]
  | cons a rest ih =>
    have ha : (dateAttrParsers now a).isSome = true := by
      rw [dateAttrParsers_isSome_iff]
      exact hrec a (List.mem_cons_self a rest)
    obtain ⟨p, hp⟩ := Option.isSome_iff_exists.mp ha
    have ihr := ih (fun n hn => hrec n (List.mem_cons_of_mem a hn))
    unfold epochFirst
    cases hel : el a with
    | none =>
      constructor
      · intro h n hn
        rcases List.mem_cons.mp hn with rfl | hn'
        · simp [attrTruthy, hel]
        · exact (ihr.mp h) n hn'
      · intro h
        exact ihr.mpr (fun n hn => h n (List.mem_cons_of_mem a hn))
    | some v =>
      cases hv : v.isEmpty with
      | true =>
        simp only [hv, if_true]
        constructor
        · intro h n hn
          rcases List.mem_cons.mp hn with rfl | hn'
          · simp [attrTruthy, hel, hv]
          · exact (ihr.mp h) n hn'
        · intro h
          exact ihr.mpr (fun n hn => h n (List.mem_cons_of_mem a hn))
      | false =>
        simp only [hv, Bool.false_eq_true, if_false, hp]
        constructor
        · intro h
          exfalso
          cases hpv : p v with
          | ok x =>
            simp only [hpv, Except.map] at h
            injection h with h
            exact Option.noConfusion h
          | error e' =>
            simp only [hpv, Except.map] at h
            exact Except.noConfusion h
        · intro h
          exfalso
          have hta := h a (List.mem_cons_self a rest)
          simp [attrTruthy, hel, hv] at hta

/-- C2: with every requested name recognized, `parseDateAttrs` fails with a
`MissingAttributeError` listing the full candidate list exactly when the
epoch resolver returns null, which happens exactly when no candidate
attribute is present and non-empty on the source; and whenever the resolver
produces an epoch, `parseDateAttrs` returns a timestamp rather than
failing. -/
theorem parseDateAttrs_missing_iff (now : ℚ) (el : AttributeSource)
    (names : List String) (hrec : ∀ n ∈ names, recognizedAttr n = true) :
    (parseDateAttrs now el names = Except.error (DateError.missingAttribute names) ↔
      parseEpoch now el names = Except.ok none) ∧
    (parseEpoch now el names = Except.ok none ↔
      ∀ n ∈ names, attrTruthy (el n) = false) ∧
    (∀ e, parseEpoch now el names = Except.ok (some e) →
      ∃ t, parseDateAttrs now el names = Except.ok t) := by
  have hbridge := parseEpoch_eq_epochFirst now el names hrec
  refine ⟨?_, ?_, ?_⟩
  · constructor
    · intro h
      cases hep : parseEpoch now el names with
      | error e =>
        unfold parseDateAttrs at h
        simp only [hep] at h
        injection h with h
        obtain ⟨u, hu⟩ := epochFirst_error_invalid now el names e (hbridge ▸ hep)
        rw [h] at hu
        exact DateError.noConfusion hu
      | ok o =>
        cases o with
        | none => rfl
        | some x =>
          unfold parseDateAttrs at h
          simp only [hep] at h
          exact Except.noConfusion h
    · intro h
      unfold parseDateAttrs
      rw [h]
  · rw [hbridge]
    exact epochFirst_none_iff now el names hrec
  · intro e he
    refine ⟨e.add (JSNum.num (offsetSecondsOf el * 1000)), ?_⟩
    unfold parseDateAttrs
    rw [he]

/-- Witness for C2: on a source with no attributes, the call with names
`["timestamp-ms"]` fails with the missing-attribute error listing that
name. -/
theorem parseDateAttrs_missing_iff_witness :
    parseDateAttrs 0 (sourceOfList []) ["timestamp-ms"] =
      Except.error (DateError.missingAttribute ["timestamp-ms"]) :=
  ((parseDateAttrs_missing_iff 0 (sourceOfList []) ["timestamp-ms"]
      (by intro n hn; simp at hn; rw [hn]; rfl)).1).mpr rfl

theorem epochFirst_append_skip (now : ℚ) (el : AttributeSource)
    (pre rest : List String)
    (hpre : ∀ m ∈ pre, attrTruthy (el m) = false) :
    epochFirst now el (pre ++ rest) = epochFirst now el rest := by
  induction pre with
  | nil => rfl
  | cons b pre ih =>
    have hb := hpre b (List.mem_cons_self b pre)
    show epochFirst now el (b :: (pre ++ rest)) = epochFirst now el rest
    simp only [epochFirst]
    cases helb : el b with
    | none => exact ih (fun m hm => hpre m (List.mem_cons_of_mem b hm))
    | some w =>
      have hw : w.isEmpty = true := by
        simp [attrTruthy, helb] at hb
        simpa using hb
      simp only [hw, if_true]
      exact ih (fun m hm => hpre m (List.mem_cons_of_mem b hm))

theorem epochFirst_cons_truthy (now : ℚ) (el : AttributeSource) (n : String)
    (rest : List String) (v : String) (p : String → Except DateError JSNum)
    (hn : el n = some v) (hv : v.isEmpty = false)
    (hp : dateAttrParsers now n = some p) :
    epochFirst now el (n :: rest) = (p v).map some := by
  unfold epochFirst
  simp only [hn, hv, Bool.false_eq_true, if_false, hp]

/-- C3: when every requested name is recognized and every name before `n`
in the list has no present, non-empty attribute value, while `n` has the
truthy value `v`, the epoch resolver returns the result of applying the
registry parser of `n` to `v` — the first truthy name in list order wins,
regardless of the names (and values) after it. -/
theorem parseEpoch_first_truthy_wins (now : ℚ) (el : AttributeSource)
    (pre post : List String) (n v : String)
    (p : String → Except DateError JSNum)
    (hrec : ∀ m ∈ pre ++ n :: post, recognizedAttr m = true)
    (hpre : ∀ m ∈ pre, attrTruthy (el m) = false)
    (hn : el n = some v) (hv : v.isEmpty = false)
    (hp : dateAttrParsers now n = some p) :
    parseEpoch now el (pre ++ n :: post) = (p v).map some := by
  rw [parseEpoch_eq_epochFirst now el _ hrec,
    epochFirst_append_skip now el pre _ hpre,
    epochFirst_cons_truthy now el n post v p hn hv hp]

/-- Witness for C3: with names `["timestamp-ms", "datetime"]` and both
attributes present, `timestamp-ms` wins even though the `datetime` value is
not a valid date. -/
theorem parseEpoch_first_truthy_wins_witness :
    parseEpoch 0 (sourceOfList [("timestamp-ms", "5000"), ("datetime", "not-a-date")])
      ["timestamp-ms", "datetime"] = Except.ok (some (JSNum.num 5000)) := by
  have h := parseEpoch_first_truthy_wins 0
    (sourceOfList [("timestamp-ms", "5000"), ("datetime", "not-a-date")])
    [] ["datetime"] "timestamp-ms" "5000" parseTimestampMsValue
    (by intro m hm; fin_cases hm <;> rfl)
    (fun m hm => absurd hm (List.not_mem_nil m))
    rfl rfl rfl
  exact h.trans rfl

/-- C4: a non-numeric (NaN-coercing) value supplied for `timeleft-ms`,
`timestamp-ms` or `timestamp-seconds` raises no error: the registry parser
returns NaN, and the enclosing `parseDateAttrs` call propagates NaN
silently to the caller. -/
theorem numeric_nan_silent (now : ℚ) (el : AttributeSource) (name v : String)
    (hname : name = "timeleft-ms" ∨ name = "timestamp-ms" ∨ name = "timestamp-seconds")
    (hv : el name = some v) (hne : v.isEmpty = false)
    (hnan : jsToNumber v = JSNum.nan) :
    (∀ p, dateAttrParsers now name = some p → p v = Except.ok JSNum.nan) ∧
    parseDateAttrs now el [name] = Except.ok JSNum.nan := by
  have hrec : ∀ m ∈ [name], recognizedAttr m = true := by
    intro m hm
    rcases List.mem_singleton.mp hm with rfl
    rcases hname with rfl | rfl | rfl <;> rfl
  have hpar : ∀ p, dateAttrParsers now name = some p → p v = Except.ok JSNum.nan := by
    intro p hp
    rcases hname with rfl | rfl | rfl
    · have h0 : dateAttrParsers now "timeleft-ms" = some (parseTimeleftValue now) := rfl
      rw [h0] at hp
      rw [← Option.some.inj hp]
      unfold parseTimeleftValue
      rw [hnan]
      rfl
    · have h0 : dateAttrParsers now "timestamp-ms" = some parseTimestampMsValue := rfl
      rw [h0] at hp
      rw [← Option.some.inj hp]
      unfold parseTimestampMsValue
      rw [hnan]
    · have h0 : dateAttrParsers now "timestamp-seconds" = some parseTimestampSecondsValue := rfl
      rw [h0] at hp
      rw [← Option.some.inj hp]
      unfold parseTimestampSecondsValue
      rw [hnan]
      rfl
  refine ⟨hpar, ?_⟩
  obtain ⟨p, hp⟩ := Option.isSome_iff_exists.mp
    (by rw [dateAttrParsers_isSome_iff]; exact hrec name (List.mem_singleton.mpr rfl) :
      (dateAttrParsers now name).isSome = true)
  have he : epochFirst now el [name] = Except.ok (some JSNum.nan) := by
    rw [epochFirst_cons_truthy now el name [] v p hv hne hp, hpar p hp]
    rfl
  unfold parseDateAttrs
  rw [parseEpoch_eq_epochFirst now el [name] hrec, he]
  rfl

/-- Witness for C4: `timestamp-ms` set to the non-numeric string `abc`
makes `parseDateAttrs` return NaN rather than fail. -/
theorem numeric_nan_silent_witness :
    (∀ p, dateAttrParsers 0 "timestamp-ms" = some p → p "abc" = Except.ok JSNum.nan) ∧
    parseDateAttrs 0 (sourceOfList [("timestamp-ms", "abc")]) ["timestamp-ms"] =
      Except.ok JSNum.nan :=
  numeric_nan_silent 0 (sourceOfList [("timestamp-ms", "abc")]) "timestamp-ms" "abc"
    (Or.inr (Or.inl rfl)) rfl rfl rfl

/-- C5: whenever the epoch resolver produces a finite epoch `e`,
`parseDateAttrs` returns `e + 1000 * s` where `s` is the value of the
`offset-seconds` computation, and `s` is the numeric value of the
`offset-seconds` attribute, defaulting to 0 when the attribute is absent or
non-numeric. -/
theorem parseDateAttrs_adds_offset (now : ℚ) (el : AttributeSource)
    (names : List String) (e : ℚ)
    (h : parseEpoch now el names = Except.ok (some (JSNum.num e))) :
    parseDateAttrs now el names = Except.ok (JSNum.num (e + 1000 * offsetSecondsOf el)) ∧
    (el "offset-seconds" = none → offsetSecondsOf el = 0) ∧
    (∀ v, el "offset-seconds" = some v → jsToNumber v = JSNum.nan →
      offsetSecondsOf el = 0) ∧
    (∀ v q, el "offset-seconds" = some v → jsToNumber v = JSNum.num q →
      offsetSecondsOf el = q) := by
  refine ⟨?_, ?_, ?_, ?_⟩
  · unfold parseDateAttrs
    rw [h]
    show Except.ok (JSNum.num (e + offsetSecondsOf el * 1000)) = _
    rw [mul_comm]
  · intro h0
    simp [offsetSecondsOf, h0]
  · intro v hv hnan
    simp [offsetSecondsOf, hv, hnan]
  · intro v q hv hq
    simp [offsetSecondsOf, hv, hq]

/-- Witness for C5: `timestamp-ms` 5000 with `offset-seconds` 2 yields
5000 + 2000 = 7000. -/
theorem parseDateAttrs_adds_offset_witness :
    parseDateAttrs 0 (sourceOfList [("timestamp-ms", "5000"), ("offset-seconds", "2")])
      ["timestamp-ms"] = Except.ok (JSNum.num 7000) := by
  have h := (parseDateAttrs_adds_offset 0
    (sourceOfList [("timestamp-ms", "5000"), ("offset-seconds", "2")])
    ["timestamp-ms"] 5000 rfl).1
  rw [h]
  have hoff : offsetSecondsOf
      (sourceOfList [("timestamp-ms", "5000"), ("offset-seconds", "2")]) = 2 := by
    show ((2 : Nat) : ℚ) = 2
    norm_num
  rw [hoff]
  norm_num

/-- C6: the registry parser for `datetime` (the same parser serves
`end-date`) fails with `InvalidDateError` exactly when the value is
unparsable as a date, and otherwise returns the millisecond epoch of the
parsed calendar instant. -/
theorem datetime_invalid_iff (now : ℚ) (name v : String)
    (hname : name = "datetime" ∨ name = "end-date") :
    dateAttrParsers now name = some parseDatetimeValue ∧
    (parseDatetimeValue v = Except.error (DateError.invalidDate v) ↔ parseDate v = none) ∧
    (∀ ms, parseDate v = some ms → parseDatetimeValue v = Except.ok (JSNum.num (ms : ℚ))) := by
  refine ⟨?_, ⟨?_, ?_⟩, ?_⟩
  · rcases hname with rfl | rfl <;> rfl
  · intro h
    cases hd : parseDate v with
    | some ms =>
      unfold parseDatetimeValue at h
      simp only [hd] at h
      exact Except.noConfusion h
    | none => rfl
  · intro h
    unfold parseDatetimeValue
    rw [h]
  · intro ms hms
    unfold parseDatetimeValue
    rw [hms]

/-- Witness for C6: `datetime` set to `2023-01-01T00:00:00Z` parses to that
instant's millisecond epoch, 1672531200000, and the full `parseDateAttrs`
call returns it with `offset-seconds` defaulting to 0. -/
theorem datetime_invalid_iff_witness :
    parseDatetimeValue "2023-01-01T00:00:00Z" = Except.ok (JSNum.num 1672531200000) ∧
    parseDateAttrs 0 (sourceOfList [("datetime", "2023-01-01T00:00:00Z")]) ["datetime"] =
      Except.ok (JSNum.num 1672531200000) := by
  constructor
  · have h := (datetime_invalid_iff 0 "datetime" "2023-01-01T00:00:00Z" (Or.inl rfl)).2.2
      1672531200000 rfl
    rw [h]
    norm_num
  · show Except.ok (JSNum.add (JSNum.num ((1672531200000 : Int) : ℚ)) (JSNum.num ((0 : ℚ) * 1000))) =
      Except.ok (JSNum.num 1672531200000)
    norm_num [JSNum.add]

/-- C7: for a numeric value `v` of `timestamp-seconds`, the registry parser
returns 1000 times the numeric value, and so does the epoch resolver when
`timestamp-seconds` is the requested name and is present. -/
theorem timestamp_seconds_times_1000 (now : ℚ) (el : AttributeSource) (v : String) (q : ℚ)
    (hv : el "timestamp-seconds" = some v) (hne : v.isEmpty = false)
    (hq : jsToNumber v = JSNum.num q) :
    parseTimestampSecondsValue v = Except.ok (JSNum.num (1000 * q)) ∧
    parseEpoch now el ["timestamp-seconds"] = Except.ok (some (JSNum.num (1000 * q))) := by
  have hpv : parseTimestampSecondsValue v = Except.ok (JSNum.num (1000 * q)) := by
    unfold parseTimestampSecondsValue
    rw [hq]
    rfl
  refine ⟨hpv, ?_⟩
  rw [parseEpoch_eq_epochFirst now el _ (by intro m hm; fin_cases hm; rfl),
    epochFirst_cons_truthy now el "timestamp-seconds" [] v parseTimestampSecondsValue hv hne rfl,
    hpv]
  rfl

/-- Witness for C7: `timestamp-seconds` set to `10` resolves to the epoch
10000. -/
theorem timestamp_seconds_times_1000_witness :
    parseEpoch 0 (sourceOfList [("timestamp-seconds", "10")]) ["timestamp-seconds"] =
      Except.ok (some (JSNum.num 10000)) := by
  have h := (timestamp_seconds_times_1000 0 (sourceOfList [("timestamp-seconds", "10")])
    "10" 10 rfl rfl rfl).2
  rw [h]
  norm_num

/-- C8: the `timeleft-ms` parser returns the wall-clock value plus the
numeric attribute value. With the clock explicit, two evaluations of the
same value at clocks `now1` and `now2` differ by exactly `now2 - now1`, and
the result is strictly monotone in the clock — the parser is not idempotent
across time. -/
theorem timeleft_monotone_in_clock (v : String) (q now1 now2 : ℚ)
    (hq : jsToNumber v = JSNum.num q) :
    dateAttrParsers now1 "timeleft-ms" = some (parseTimeleftValue now1) ∧
    parseTimeleftValue now1 v = Except.ok (JSNum.num (now1 + q)) ∧
    parseTimeleftValue now2 v = Except.ok (JSNum.num (now2 + q)) ∧
    (now2 + q) - (now1 + q) = now2 - now1 ∧
    (now1 < now2 → now1 + q < now2 + q) := by
  refine ⟨rfl, ?_, ?_, by ring, fun h => by linarith⟩
  · unfold parseTimeleftValue
    rw [hq]
    rfl
  · unfold parseTimeleftValue
    rw [hq]
    rfl

/-- Witness for C8: the value `100` parsed at clock 0 yields 100 and at
clock 5 yields 105 — the results differ by exactly the clock difference. -/
theorem timeleft_monotone_in_clock_witness :
    parseTimeleftValue 0 "100" = Except.ok (JSNum.num 100) ∧
    parseTimeleftValue 5 "100" = Except.ok (JSNum.num 105) := by
  have h := timeleft_monotone_in_clock "100" 100 0 5 rfl
  constructor
  · rw [h.2.1]
    norm_num
  · rw [h.2.2.1]
    norm_num

theorem epochScan_agree (el1 el2 : AttributeSource)
    (l : List (String × (String → Except DateError JSNum)))
    (h : ∀ pr ∈ l, el1 pr.fst = el2 pr.fst) :
    epochScan el1 l = epochScan el2 l := by
  induction l with
  | nil => rfl
  | cons hd tl ih =>
    obtain ⟨name, p⟩ := hd
    have hh : el1 name = el2 name := h (name, p) (List.mem_cons_self _ _)
    have htl : epochScan el1 tl = epochScan el2 tl :=
      ih (fun pr hpr => h pr (List.mem_cons_of_mem _ hpr))
    simp only [epochScan]
    rw [hh]
    cases el2 name with
    | none => exact htl
    | some v =>
      show (if v.isEmpty = true then epochScan el1 tl else Except.map some (p v)) =
        (if v.isEmpty = true then epochScan el2 tl else Except.map some (p v))
      by_cases hve : v.isEmpty = true
      · rw [if_pos hve, if_pos hve]
        exact htl
      · rw [if_neg hve, if_neg hve]

/-- The epoch resolver reads only the requested attributes: two sources
that agree on every requested name resolve identically. -/
theorem parseEpoch_agree (now : ℚ) (el1 el2 : AttributeSource) (names : List String)
    (h : ∀ n ∈ names, el1 n = el2 n) :
    parseEpoch now el1 names = parseEpoch now el2 names := by
  unfold parseEpoch
  cases hv : validateAttrs now names with
  | error e => rfl
  | ok ps =>
    refine epochScan_agree el1 el2 (names.zip ps) ?_
    intro pr hpr
    obtain ⟨a, b⟩ := pr
    exact h a (List.of_mem_zip hpr).1

/-- C9: two attribute sources that agree on every requested name and on
`offset-seconds` produce the same `parseDateAttrs` outcome — the same
timestamp or the same error; no other attribute influences the result. -/
theorem parseDateAttrs_noninterference (now : ℚ) (el1 el2 : AttributeSource)
    (names : List String)
    (hagree : ∀ n ∈ names, el1 n = el2 n)
    (hoff : el1 "offset-seconds" = el2 "offset-seconds") :
    parseDateAttrs now el1 names = parseDateAttrs now el2 names := by
  have hep := parseEpoch_agree now el1 el2 names hagree
  have hofs : offsetSecondsOf el1 = offsetSecondsOf el2 := by
    unfold offsetSecondsOf
    rw [hoff]
  unfold parseDateAttrs
  rw [hep, hofs]

/-- Witness for C9: an extra unrelated attribute on one source does not
change the result. -/
theorem parseDateAttrs_noninterference_witness :
    parseDateAttrs 0 (sourceOfList [("timestamp-ms", "5000"), ("unrelated", "junk")])
      ["timestamp-ms"] =
    parseDateAttrs 0 (sourceOfList [("timestamp-ms", "5000")]) ["timestamp-ms"] :=
  parseDateAttrs_noninterference 0
    (sourceOfList [("timestamp-ms", "5000"), ("unrelated", "junk")])
    (sourceOfList [("timestamp-ms", "5000")]) ["timestamp-ms"]
    (by intro n hn; fin_cases hn; rfl) rfl

/-- C10: with an empty list of attribute names, `parseDateAttrs` always
fails with a `MissingAttributeError` whose candidate list is empty, and the
outcome does not depend on the source at all — no attribute, including
`offset-seconds`, is read. -/
theorem parseDateAttrs_empty_names (now : ℚ) (el : AttributeSource) :
    parseDateAttrs now el [] = Except.error (DateError.missingAttribute []) ∧
    ∀ el2 : AttributeSource, parseDateAttrs now el2 [] = parseDateAttrs now el [] := by
  exact ⟨rfl, fun el2 => rfl⟩

end AmpDate
